import Mathlib

/-!
Verification of the lighthouse repository fragment: the metrics helpers
(`common/metrics/src/lib.rs`), voluntary-exit validation
(`consensus/state_processing/src/per_block_processing/verify_exit.rs`),
and the attestation / sync-committee subnet subscription service
(whose implementation is described by `spec.md` and exercised by
`beacon_node/network/src/subnet_service/tests/mod.rs`).
-/

namespace Lighthouse

/-! ## Metrics: `decimal_buckets` (common/metrics/src/lib.rs, lines 401-416)

The Rust code computes `m * 10f64.powi(n)` for `n` in `min_power..=max_power`
and `m` in `[1, 2, 5]`.  Floating-point values are modelled exactly as
rationals. -/

/-- Inner loop of `decimal_buckets`: starting at power `n`, produce the
`[1, 2, 5] * 10^n` triples for `count` consecutive powers, ascending. -/
def bucketsFrom (n : Int) : Nat → List ℚ
  | 0 => []
  | count + 1 =>
      ([1, 2, 5].map (fun m => (m : ℚ) * (10 : ℚ) ^ n)) ++ bucketsFrom (n + 1) count

/-- `decimal_buckets(min_power, max_power)`: `Err` when `max_power < min_power`,
otherwise the buckets `1, 2, 5` times `10^n` for `n` from `min_power` to
`max_power`. -/
def decimal_buckets (min_power max_power : Int) : Except String (List ℚ) :=
  if max_power < min_power then
    .error "decimal_buckets min_power needs to be <= max_power"
  else
    .ok (bucketsFrom min_power (max_power - min_power + 1).toNat)

/-- The multiplier used at position `r` within each power-of-ten triple. -/
def bucketMultiplier (r : Nat) : ℚ :=
  if r = 0 then 1 else if r = 1 then 2 else 5

theorem bucketsFrom_length (n : Int) (count : Nat) :
    (bucketsFrom n count).length = 3 * count := by
  induction count generalizing n with
  | zero => rfl
  | succ k ih =>
      simp only [bucketsFrom, List.length_append, List.length_map, List.length_cons,
        List.length_nil, ih]
      omega

theorem bucketsFrom_get (n : Int) (count : Nat) (k : Nat)
    (hk : k < (bucketsFrom n count).length) :
    (bucketsFrom n count).get ⟨k, hk⟩ =
      bucketMultiplier (k % 3) * (10 : ℚ) ^ (n + (k / 3 : Nat)) := by
  induction count generalizing n k with
  | zero => simp [bucketsFrom] at hk
  | succ c ih =>
      by_cases h3 : k < 3
      · interval_cases k <;>
          simp [bucketsFrom, bucketMultiplier, List.get]
      · have hk' : k - 3 < (bucketsFrom (n + 1) c).length := by
          have h1 := bucketsFrom_length (n + 1) c
          have h2 := bucketsFrom_length n (c + 1)
          omega
        have hstep : (bucketsFrom n (c + 1)).get ⟨k, hk⟩ =
            (bucketsFrom (n + 1) c).get ⟨k - 3, hk'⟩ := by
          simp only [bucketsFrom, List.get_eq_getElem]
          rw [List.getElem_append_right (by simpa using h3)]
          simp
        rw [hstep, ih]
        have hmod : (k - 3) % 3 = k % 3 := by omega
        have hdiv : (k - 3) / 3 + 1 = k / 3 := by omega
        rw [hmod]
        congr 1
        push_cast [← hdiv]
        ring

/-! ## Metrics mutation helpers (common/metrics/src/lib.rs)

The helpers receive `&Result<Metric>` handles; failed metric creation is an
`Err` handle.  The prometheus registry state backing a gauge family is
threaded explicitly as an association list from label values to the gauge's
integer value; `get_metric_with_label_values` fails exactly when the number
of supplied label values differs from the family's label names
(prometheus `InconsistentCardinality`). -/

/-- An `IntGaugeVec` metric family: its registered label names. -/
structure IntGaugeVecM where
  labelNames : List String
deriving DecidableEq

/-- Write a labelled gauge value into the family's storage. -/
def gaugeWrite : List (List String × Int) → List String → Int → List (List String × Int)
  | [], n, v => [(n, v)]
  | (k, w) :: rest, n, v =>
      if k = n then (k, v) :: rest else (k, w) :: gaugeWrite rest n v

/-- Read a labelled gauge value from the family's storage. -/
def gaugeRead : List (List String × Int) → List String → Option Int
  | [], _ => none
  | (k, w) :: rest, n => if k = n then some w else gaugeRead rest n

/-- `set_int_gauge` (lines 210-222): if the handle is `Ok` and the labelled
gauge can be retrieved, set it and return `true`; otherwise return `false`.
The returned list is the gauge family's storage after the call. -/
def set_int_gauge (int_gauge_vec : Except Unit IntGaugeVecM)
    (store : List (List String × Int)) (name : List String) (value : Int) :
    Bool × List (List String × Int) :=
  match int_gauge_vec with
  | .error _ => (false, store)
  | .ok v =>
      if name.length = v.labelNames.length then (true, gaugeWrite store name value)
      else (false, store)

/-- `inc_counter` (lines 300-304): increment the counter when the handle is
`Ok`, otherwise leave it untouched.  The counter's current value is threaded
explicitly. -/
def inc_counter (counter : Except Unit Unit) (count : Nat) : Nat :=
  match counter with
  | .error _ => count
  | .ok _ => count + 1

theorem gaugeRead_gaugeWrite_self (store : List (List String × Int))
    (name : List String) (value : Int) :
    gaugeRead (gaugeWrite store name value) name = some value := by
  induction store with
  | nil => simp [gaugeWrite, gaugeRead]
  | cons p rest ih =>
      obtain ⟨k, w⟩ := p
      by_cases hk : k = name
      · simp [gaugeWrite, gaugeRead, hk]
      · simp [gaugeWrite, gaugeRead, hk, ih]

/-! ## Voluntary-exit validation
(consensus/state_processing/src/per_block_processing/verify_exit.rs)

Epochs and indices are `u64` in the source; they are modelled as `Nat` with
`safe_add` checking 64-bit overflow the way the `safe_arith` crate does.
External collaborators are abstracted as data: the signature-set construction
and verification (`exit_signature_set(..).verify()`) is an
`Except _ Bool` argument, and `state.get_pending_balance_to_withdraw` is a
pre-computed per-state lookup (`Err` on pre-Electra states). -/

/-- A validator record: the fields read by `verify_exit`. -/
structure ValidatorM where
  activation_epoch : Nat
  exit_epoch : Nat
deriving DecidableEq

/-- `Validator::is_active_at`: `activation_epoch <= epoch && epoch < exit_epoch`. -/
def ValidatorM.is_active_at (v : ValidatorM) (epoch : Nat) : Bool :=
  decide (v.activation_epoch ≤ epoch) && decide (epoch < v.exit_epoch)

/-- The beacon-state fields read by `verify_exit`.
`pendingPartialWithdrawals` is `none` for pre-Electra states (where
`get_pending_balance_to_withdraw` returns `Err`), and the list of
`(validator_index, amount)` pending partial withdrawals otherwise. -/
structure BeaconStateM where
  validators : List ValidatorM
  current_epoch : Nat
  pendingPartialWithdrawals : Option (List (Nat × Nat))

/-- `BeaconState::get_pending_balance_to_withdraw`: sum the pending partial
withdrawals of the given validator; `none` models the pre-Electra `Err`. -/
def BeaconStateM.get_pending_balance_to_withdraw (st : BeaconStateM) (i : Nat) :
    Option Nat :=
  st.pendingPartialWithdrawals.map
    (fun l => ((l.filter (fun p => p.1 == i)).map Prod.snd).sum)

/-- The chain-spec fields read by `verify_exit`. -/
structure ChainSpecM where
  far_future_epoch : Nat
  shard_committee_period : Nat

/-- `ExitInvalid` reasons (per_block_processing/errors.rs), as used by
`verify_exit`. -/
inductive ExitInvalid where
  | ValidatorUnknown (i : Nat)
  | NotActive (i : Nat)
  | AlreadyExited (i : Nat)
  | FutureEpoch (state : Nat) (exit : Nat)
  | TooYoungToExit (current_epoch : Nat) (earliest_exit_epoch : Nat)
  | BadSignature
  | PendingWithdrawalInQueue (i : Nat)
deriving DecidableEq

/-- `BlockOperationError<ExitInvalid>`: an invalid-exit reason, a signature-set
construction failure, or a `safe_arith` overflow. -/
inductive ExitBlockOperationError where
  | invalid (e : ExitInvalid)
  | signatureSetError
  | arithError
deriving DecidableEq

/-- `VoluntaryExit` message fields. -/
structure VoluntaryExitM where
  epoch : Nat
  validator_index : Nat
deriving DecidableEq

/-- `safe_arith` `u64` addition: `none` on overflow past `2^64 - 1`. -/
def safe_add (a b : Nat) : Option Nat :=
  if a + b < 2 ^ 64 then some (a + b) else none

/-- `verify_exit` (verify_exit.rs, lines 21-94).  `sig_verify` is the
outcome of `exit_signature_set(..)` followed by `.verify()`:
`.error` when the signature set cannot be built, `.ok b` when it verifies
to `b`.  It is consulted only when `verify_signatures` is true. -/
def verify_exit (state : BeaconStateM) (current_epoch_arg : Option Nat)
    (exit : VoluntaryExitM) (verify_signatures : Bool)
    (sig_verify : Except ExitBlockOperationError Bool) (spec : ChainSpecM) :
    Except ExitBlockOperationError Unit :=
  let current_epoch := current_epoch_arg.getD state.current_epoch
  match state.validators.get? exit.validator_index with
  | none => .error (.invalid (.ValidatorUnknown exit.validator_index))
  | some validator =>
    if ¬ validator.is_active_at current_epoch then
      .error (.invalid (.NotActive exit.validator_index))
    else if ¬ (validator.exit_epoch = spec.far_future_epoch) then
      .error (.invalid (.AlreadyExited exit.validator_index))
    else if ¬ (exit.epoch ≤ current_epoch) then
      .error (.invalid (.FutureEpoch current_epoch exit.epoch))
    else
      match safe_add validator.activation_epoch spec.shard_committee_period with
      | none => .error .arithError
      | some earliest_exit_epoch =>
        if ¬ (earliest_exit_epoch ≤ current_epoch) then
          .error (.invalid (.TooYoungToExit current_epoch earliest_exit_epoch))
        else
          let afterSig : Except ExitBlockOperationError Unit :=
            match state.get_pending_balance_to_withdraw exit.validator_index with
            | some pending_balance_to_withdraw =>
                if pending_balance_to_withdraw = 0 then .ok ()
                else .error (.invalid (.PendingWithdrawalInQueue exit.validator_index))
            | none => .ok ()
          if verify_signatures then
            match sig_verify with
            | .error e => .error e
            | .ok b => if b then afterSig else .error (.invalid .BadSignature)
          else afterSig

/-! ## Subnet subscription service

Modelled from the spec: the implementation of
`beacon_node/network/src/subnet_service/mod.rs` is not part of the
repository fragment — only its test module is — so the service is modelled
from spec.md sections 3, 4 and 8, with the spec's ambiguities resolved the way
`subnet_service/tests/mod.rs` observes the service behaving (in particular,
an attestation subscription with at least `MIN_PEER_DISCOVERY_SLOT_LOOK_AHEAD`
slots of runway is scheduled as its own subscribe-one-slot-early /
unsubscribe-at-`slot+1` window, and discovery candidates are queued before the
permanent-subnet short-circuit, as `subscribe_all_subnets` and
`test_subscribe_same_subnet_several_slots_apart` require). -/

/-- A gossip subnet: attestation subnets `0..attestation_subnet_count`, sync
committee subnets `0..sync_committee_subnet_count`. -/
inductive Subnet where
  | attSubnet (id : Nat)
  | syncSubnet (id : Nat)
deriving DecidableEq, Repr

/-- `SubnetServiceMessage`: the service's output stream.  A discovery request
carries `(subnet, min_ttl)` pairs; `none` is the long-lived `min_ttl` of the
permanent batch. -/
inductive SubnetServiceMessage where
  | subscribe (s : Subnet)
  | unsubscribe (s : Subnet)
  | enrAdd (s : Subnet)
  | enrRemove (s : Subnet)
  | discoverPeers (reqs : List (Subnet × Option Nat))
deriving DecidableEq, Repr

/-- `Subscription`: a validator attestation duty or a sync-committee duty. -/
inductive Subscription where
  | attDuty (committee_index : Nat) (slot : Nat) (committee_count_at_slot : Nat)
      (is_aggregator : Bool)
  | syncDuty (validator_index : Nat) (sync_committee_indices : List Nat)
      (until_epoch : Nat)
deriving DecidableEq, Repr

/-- Chain-spec configuration consumed by the service. -/
structure SubnetConfig where
  subnets_per_node : Nat
  attestation_subnet_count : Nat
  sync_committee_subnet_count : Nat
  slots_per_epoch : Nat
  min_peer_discovery_slot_look_ahead : Nat
  sync_committee_size : Nat
deriving DecidableEq, Repr

/-- The mainnet configuration used by the tests (`MainnetEthSpec`); the
lookahead constant is only observably between 2 and 3 slots in the tests, and
its value is irrelevant to the claims. -/
def mainnetConfig : SubnetConfig :=
  { subnets_per_node := 4
    attestation_subnet_count := 64
    sync_committee_subnet_count := 4
    slots_per_epoch := 32
    min_peer_discovery_slot_look_ahead := 6
    sync_committee_size := 512 }

/-- Modelled from the spec: the chain-spec-defined deterministic mapping
`SubnetId::compute_subnet(slot, committee_index, committee_count_at_slot)`
(consensus-spec `compute_subnet_for_attestation`):
`(committee_count_at_slot * (slot % slots_per_epoch) + committee_index)
 % attestation_subnet_count`. -/
def computeSubnet (cfg : SubnetConfig) (slot committee_index committee_count_at_slot : Nat) :
    Nat :=
  (committee_count_at_slot * (slot % cfg.slots_per_epoch) + committee_index)
    % cfg.attestation_subnet_count

/-- Modelled from the spec: the deterministic mapping
`SyncSubnetId::compute_subnets_for_sync_committee` (consensus-spec): each
committee position maps to subnet
`index / (sync_committee_size / sync_committee_subnet_count)`; duplicates are
collapsed (the source returns a set). -/
def computeSyncSubnets (cfg : SubnetConfig) (indices : List Nat) : List Nat :=
  (indices.map
    (fun i => i / (cfg.sync_committee_size / cfg.sync_committee_subnet_count))).dedup

/-- Expiry-map lookup (`Subnet -> expiry`). -/
def lookupA : List (Nat × Nat) → Nat → Option Nat
  | [], _ => none
  | (k, v) :: rest, key => if k = key then some v else lookupA rest key

/-- Expiry-map insertion rule (spec section 3): if the key exists, keep the
larger of the old and new expiry; otherwise append the new entry. -/
def insertMax : List (Nat × Nat) → Nat → Nat → List (Nat × Nat)
  | [], k, v => [(k, v)]
  | (k0, v0) :: rest, k, v =>
      if k0 = k then (k0, Nat.max v0 v) :: rest else (k0, v0) :: insertMax rest k v

/-- Scheduled subscription windows are a set keyed by
`(subnet, subscribe_slot, expiry_slot)`: inserting an already-present window
is a no-op. -/
def schedInsert (l : List (Nat × Nat × Nat)) (q : Nat × Nat × Nat) :
    List (Nat × Nat × Nat) :=
  if q ∈ l then l else l ++ [q]

/-- The service's mutable state: active short-lived attestation subnets with
their expiry slots, scheduled future attestation windows
`(subnet, subscribe_slot, expiry_slot)`, and sync subnets with their
`until_epoch`. -/
structure ServiceState where
  attExpiry : List (Nat × Nat)
  scheduled : List (Nat × Nat × Nat)
  syncExpiry : List (Nat × Nat)
deriving DecidableEq, Repr

/-- The state at service startup. -/
def emptyState : ServiceState := ⟨[], [], []⟩

/-- `subscriptions()`: the short-lived subnets currently tracked. -/
def subscriptionsList (st : ServiceState) : List Subnet :=
  st.attExpiry.map (fun p => Subnet.attSubnet p.1)
    ++ st.syncExpiry.map (fun p => Subnet.syncSubnet p.1)

/-- Startup (spec section 4.2): for each permanent subnet, `Subscribe` then
`EnrAdd`, followed by exactly one `DiscoverPeers` carrying all permanent
subnets with a long `min_ttl`. -/
def startupMsgs (perm : List Nat) : List SubnetServiceMessage :=
  perm.flatMap (fun s =>
      [SubnetServiceMessage.subscribe (Subnet.attSubnet s),
       SubnetServiceMessage.enrAdd (Subnet.attSubnet s)])
    ++ [SubnetServiceMessage.discoverPeers
          (perm.map (fun s => (Subnet.attSubnet s, (none : Option Nat))))]

/-- Process the sync subnets of one sync-committee subscription against the
sync expiry map (spec section 4.4): a new subnet emits `Subscribe` and
`EnrAdd` and is inserted; an existing one keeps the maximum `until_epoch`.
Every subnet queues a discovery candidate (the refresh observed by
`same_subscription_with_lower_until_epoch`), with `min_ttl` the unsubscription
slot derived from the subscription's `until_epoch`. -/
def procSyncList (cfg : SubnetConfig) (until_epoch : Nat) :
    List Nat → List (Nat × Nat) →
    List (Nat × Nat) × List SubnetServiceMessage × List (Subnet × Option Nat)
  | [], m => (m, [], [])
  | s :: rest, m =>
      let ttl := (until_epoch + 2) * cfg.slots_per_epoch
      match lookupA m s with
      | some _ =>
          let r := procSyncList cfg until_epoch rest (insertMax m s until_epoch)
          (r.1, r.2.1, (Subnet.syncSubnet s, some ttl) :: r.2.2)
      | none =>
          let r := procSyncList cfg until_epoch rest (m ++ [(s, until_epoch)])
          (r.1,
           SubnetServiceMessage.subscribe (Subnet.syncSubnet s)
             :: SubnetServiceMessage.enrAdd (Subnet.syncSubnet s) :: r.2.1,
           (Subnet.syncSubnet s, some ttl) :: r.2.2)

/-- Process one subscription (spec sections 4.3 and 4.4): returns the new
state, the messages it emits inline, and the discovery candidates it queues.
Attestation duties whose slot is already past are dropped.  A discovery
candidate is queued (before the permanent short-circuit) exactly when the
duty has at least `min_peer_discovery_slot_look_ahead` slots of runway; such
duties are scheduled to subscribe one slot early and unsubscribe at
`slot + 1`, while closer duties subscribe immediately, merging with an
existing entry by keeping the larger expiry. -/
def procSub (cfg : SubnetConfig) (perm : List Nat) (current_slot : Nat)
    (st : ServiceState) :
    Subscription →
    ServiceState × List SubnetServiceMessage × List (Subnet × Option Nat)
  | .attDuty committee_index slot committee_count _ =>
      if slot < current_slot then (st, [], [])
      else
        let u := computeSubnet cfg slot committee_index committee_count
        let cands : List (Subnet × Option Nat) :=
          if current_slot + cfg.min_peer_discovery_slot_look_ahead ≤ slot then
            [(Subnet.attSubnet u, some (slot + 1))]
          else []
        if u ∈ perm then (st, [], cands)
        else if current_slot + cfg.min_peer_discovery_slot_look_ahead ≤ slot then
          ({ st with scheduled := schedInsert st.scheduled (u, slot - 1, slot + 1) },
           [], cands)
        else
          match lookupA st.attExpiry u with
          | some _ =>
              ({ st with attExpiry := insertMax st.attExpiry u (slot + 1) }, [], cands)
          | none =>
              ({ st with attExpiry := st.attExpiry ++ [(u, slot + 1)] },
               [SubnetServiceMessage.subscribe (Subnet.attSubnet u)], cands)
  | .syncDuty _ indices until_epoch =>
      let r := procSyncList cfg until_epoch (computeSyncSubnets cfg indices) st.syncExpiry
      ({ st with syncExpiry := r.1 }, r.2.1, r.2.2)

/-- Process a batch of subscriptions in order, concatenating inline messages
and discovery candidates. -/
def procList (cfg : SubnetConfig) (perm : List Nat) (current_slot : Nat) :
    ServiceState → List Subscription →
    ServiceState × List SubnetServiceMessage × List (Subnet × Option Nat)
  | st, [] => (st, [], [])
  | st, sub :: rest =>
      let r1 := procSub cfg perm current_slot st sub
      let r2 := procList cfg perm current_slot r1.1 rest
      (r2.1, r1.2.1 ++ r2.2.1, r1.2.2 ++ r2.2.2)

/-- Deduplicate discovery candidates by subnet, keeping first occurrences. -/
def dedupBySubnet (seen : List Subnet) :
    List (Subnet × Option Nat) → List (Subnet × Option Nat)
  | [] => []
  | (s, t) :: rest =>
      if s ∈ seen then dedupBySubnet seen rest
      else (s, t) :: dedupBySubnet (s :: seen) rest

/-- `validator_subscriptions` (spec sections 4.3-4.5): process the batch,
then flush the accumulated discovery candidates — deduplicated by subnet and
capped at `attestation_subnet_count` — as at most one bulk `DiscoverPeers`. -/
def validator_subscriptions (cfg : SubnetConfig) (perm : List Nat)
    (current_slot : Nat) (st : ServiceState) (subs : List Subscription) :
    ServiceState × List SubnetServiceMessage :=
  let r := procList cfg perm current_slot st subs
  let batch := (dedupBySubnet [] r.2.2).take cfg.attestation_subnet_count
  (r.1, r.2.1 ++ if batch.isEmpty then [] else [SubnetServiceMessage.discoverPeers batch])

/-- Activate the due scheduled windows against the attestation expiry map:
a window whose subnet is already active merges its expiry (keeping the
larger); otherwise it emits `Subscribe` and becomes active. -/
def activateDue : List (Nat × Nat × Nat) → List (Nat × Nat) →
    List (Nat × Nat) × List SubnetServiceMessage
  | [], m => (m, [])
  | q :: rest, m =>
      match lookupA m q.1 with
      | some _ => activateDue rest (insertMax m q.1 q.2.2)
      | none =>
          let r := activateDue rest (m ++ [(q.1, q.2.2)])
          (r.1, SubnetServiceMessage.subscribe (Subnet.attSubnet q.1) :: r.2)

/-- Per-slot tick (spec sections 4.3 and 4.4): drain attestation entries whose
expiry slot has been reached (`Unsubscribe`), drain sync entries two epochs
past their `until_epoch` (`Unsubscribe` then `EnrRemove`), then activate the
scheduled windows whose subscribe slot has been reached. -/
def slotTick (cfg : SubnetConfig) (t : Nat) (st : ServiceState) :
    ServiceState × List SubnetServiceMessage :=
  let fired := st.attExpiry.filter (fun p => p.2 ≤ t)
  let kept := st.attExpiry.filter (fun p => ¬ p.2 ≤ t)
  let attMsgs := fired.map
    (fun p => SubnetServiceMessage.unsubscribe (Subnet.attSubnet p.1))
  let sFired := st.syncExpiry.filter (fun p => p.2 + 2 ≤ t / cfg.slots_per_epoch)
  let sKept := st.syncExpiry.filter (fun p => ¬ p.2 + 2 ≤ t / cfg.slots_per_epoch)
  let syncMsgs := sFired.flatMap
    (fun p => [SubnetServiceMessage.unsubscribe (Subnet.syncSubnet p.1),
               SubnetServiceMessage.enrRemove (Subnet.syncSubnet p.1)])
  let due := st.scheduled.filter (fun q => q.2.1 ≤ t)
  let rest := st.scheduled.filter (fun q => ¬ q.2.1 ≤ t)
  let act := activateDue due kept
  (⟨act.1, rest, sKept⟩, attMsgs ++ syncMsgs ++ act.2)

/-- Run `n` consecutive per-slot ticks starting at slot `t`. -/
def runTicks (cfg : SubnetConfig) (st : ServiceState) (t : Nat) :
    Nat → ServiceState × List SubnetServiceMessage
  | 0 => (st, [])
  | n + 1 =>
      let r1 := slotTick cfg t st
      let r2 := runTicks cfg r1.1 (t + 1) n
      (r2.1, r1.2 ++ r2.2)

/-- An input event to the running service: a `validator_subscriptions` call at
some current slot, or a slot tick. -/
inductive ServiceEvent where
  | call (current_slot : Nat) (subs : List Subscription)
  | tickAt (slot : Nat)
deriving DecidableEq, Repr

/-- One service step. -/
def serviceStep (cfg : SubnetConfig) (perm : List Nat) (st : ServiceState) :
    ServiceEvent → ServiceState × List SubnetServiceMessage
  | .call cur subs => validator_subscriptions cfg perm cur st subs
  | .tickAt t => slotTick cfg t st

/-- Run the service over a sequence of events, concatenating the emitted
messages. -/
def serviceRun (cfg : SubnetConfig) (perm : List Nat) :
    ServiceState → List ServiceEvent → ServiceState × List SubnetServiceMessage
  | st, [] => (st, [])
  | st, e :: rest =>
      let r1 := serviceStep cfg perm st e
      let r2 := serviceRun cfg perm r1.1 rest
      (r2.1, r1.2 ++ r2.2)

/-! ## Subnet service helper lemmas -/

theorem lookupA_insertMax_some {m : List (Nat × Nat)} {k w : Nat} (v : Nat)
    (h : lookupA m k = some w) :
    lookupA (insertMax m k v) k = some (Nat.max w v) := by
  induction m with
  | nil => simp [lookupA] at h
  | cons p rest ih =>
      obtain ⟨k0, v0⟩ := p
      by_cases hk : k0 = k
      · subst hk
        simp [lookupA] at h
        simp [insertMax, lookupA, h]
      · simp [lookupA, hk] at h
        simp [insertMax, lookupA, hk, ih h]

theorem procSub_att_immediate_new (cfg : SubnetConfig) (perm : List Nat)
    (cur : Nat) (st : ServiceState) (c s k : Nat) (g : Bool)
    (hpast : cur ≤ s) (hrun : s < cur + cfg.min_peer_discovery_slot_look_ahead)
    (hperm : computeSubnet cfg s c k ∉ perm)
    (hnew : lookupA st.attExpiry (computeSubnet cfg s c k) = none) :
    procSub cfg perm cur st (.attDuty c s k g) =
      ({ st with attExpiry := st.attExpiry ++ [(computeSubnet cfg s c k, s + 1)] },
       [.subscribe (.attSubnet (computeSubnet cfg s c k))], []) := by
  simp [procSub, Nat.not_lt.mpr hpast, Nat.not_le.mpr hrun, hperm, hnew]

theorem procSub_att_immediate_merge (cfg : SubnetConfig) (perm : List Nat)
    (cur : Nat) (st : ServiceState) (c s k w : Nat) (g : Bool)
    (hpast : cur ≤ s) (hrun : s < cur + cfg.min_peer_discovery_slot_look_ahead)
    (hperm : computeSubnet cfg s c k ∉ perm)
    (hold : lookupA st.attExpiry (computeSubnet cfg s c k) = some w) :
    procSub cfg perm cur st (.attDuty c s k g) =
      ({ st with attExpiry := insertMax st.attExpiry (computeSubnet cfg s c k) (s + 1) },
       [], []) := by
  simp [procSub, Nat.not_lt.mpr hpast, Nat.not_le.mpr hrun, hperm, hold]

theorem procSub_att_scheduled (cfg : SubnetConfig) (perm : List Nat)
    (cur : Nat) (st : ServiceState) (c s k : Nat) (g : Bool)
    (hpast : cur ≤ s) (hrun : cur + cfg.min_peer_discovery_slot_look_ahead ≤ s)
    (hperm : computeSubnet cfg s c k ∉ perm) :
    procSub cfg perm cur st (.attDuty c s k g) =
      ({ st with scheduled :=
          schedInsert st.scheduled (computeSubnet cfg s c k, s - 1, s + 1) },
       [], [(.attSubnet (computeSubnet cfg s c k), some (s + 1))]) := by
  simp [procSub, Nat.not_lt.mpr hpast, hrun, hperm]

theorem take_one_of_singleton {α : Type} (n : Nat) (a : α) (h : 1 ≤ n) :
    List.take n [a] = [a] := by
  cases n with
  | zero => omega
  | succ m => simp

theorem slotTick_attOnly_quiet (cfg : SubnetConfig) (t u e : Nat) (h : t < e) :
    slotTick cfg t ⟨[(u, e)], [], []⟩ = (⟨[(u, e)], [], []⟩, []) := by
  simp [slotTick, activateDue, Nat.not_le.mpr h]
  omega

theorem slotTick_attOnly_fire (cfg : SubnetConfig) (t u e : Nat) (h : e ≤ t) :
    slotTick cfg t ⟨[(u, e)], [], []⟩ =
      (⟨[], [], []⟩, [.unsubscribe (.attSubnet u)]) := by
  simp [slotTick, activateDue, h]

theorem runTicks_attOnly_quiet (cfg : SubnetConfig) (u e : Nat) :
    ∀ n t, t + n ≤ e →
      runTicks cfg ⟨[(u, e)], [], []⟩ t n = (⟨[(u, e)], [], []⟩, []) := by
  intro n
  induction n with
  | zero => intro t _; rfl
  | succ m ih =>
      intro t h
      have h1 : t < e := by omega
      simp [runTicks, slotTick_attOnly_quiet cfg t u e h1, ih (t + 1) (by omega)]

theorem slotTick_syncOnly_quiet (cfg : SubnetConfig) (t s uE : Nat)
    (h : t / cfg.slots_per_epoch < uE + 2) :
    slotTick cfg t ⟨[], [], [(s, uE)]⟩ = (⟨[], [], [(s, uE)]⟩, []) := by
  simp [slotTick, activateDue, Nat.not_le.mpr h]
  omega

theorem slotTick_syncOnly_fire (cfg : SubnetConfig) (t s uE : Nat)
    (h : uE + 2 ≤ t / cfg.slots_per_epoch) :
    slotTick cfg t ⟨[], [], [(s, uE)]⟩ =
      (⟨[], [], []⟩,
       [.unsubscribe (.syncSubnet s), .enrRemove (.syncSubnet s)]) := by
  simp [slotTick, activateDue, h]

theorem runTicks_syncOnly_quiet (cfg : SubnetConfig) (s uE : Nat)
    (hspe : 0 < cfg.slots_per_epoch) :
    ∀ n t, t + n ≤ (uE + 2) * cfg.slots_per_epoch →
      runTicks cfg ⟨[], [], [(s, uE)]⟩ t n = (⟨[], [], [(s, uE)]⟩, []) := by
  intro n
  induction n with
  | zero => intro t _; rfl
  | succ m ih =>
      intro t h
      have h1 : t / cfg.slots_per_epoch < uE + 2 :=
        (Nat.div_lt_iff_lt_mul hspe).mpr (by omega)
      simp [runTicks, slotTick_syncOnly_quiet cfg t s uE h1, ih (t + 1) (by omega)]

/-- Core computation shared by the same-subnet claims: two attestation duties
in one call, mapping to the same non-permanent subnet, both within the
discovery lookahead, merge into a single expiry entry `s2 + 1` and emit a
single `Subscribe`. -/
theorem sameSubnetOverlap (cfg : SubnetConfig) (perm : List Nat)
    (cur c1 c2 k1 k2 s1 s2 : Nat) (g1 g2 : Bool)
    (hu : computeSubnet cfg s2 c2 k2 = computeSubnet cfg s1 c1 k1)
    (hperm : computeSubnet cfg s1 c1 k1 ∉ perm)
    (hcur : cur ≤ s1) (h12 : s1 < s2)
    (hL : s2 < cur + cfg.min_peer_discovery_slot_look_ahead) :
    validator_subscriptions cfg perm cur emptyState
        [.attDuty c1 s1 k1 g1, .attDuty c2 s2 k2 g2] =
      (⟨[(computeSubnet cfg s1 c1 k1, s2 + 1)], [], []⟩,
       [.subscribe (.attSubnet (computeSubnet cfg s1 c1 k1))]) := by
  have e1 : procSub cfg perm cur emptyState (.attDuty c1 s1 k1 g1) =
      (⟨[(computeSubnet cfg s1 c1 k1, s1 + 1)], [], []⟩,
       [.subscribe (.attSubnet (computeSubnet cfg s1 c1 k1))], []) := by
    have h := procSub_att_immediate_new cfg perm cur emptyState c1 s1 k1 g1
      hcur (by omega) hperm rfl
    simpa [emptyState] using h
  have hperm2 : computeSubnet cfg s2 c2 k2 ∉ perm := by rw [hu]; exact hperm
  have hold2 : lookupA
      (⟨[(computeSubnet cfg s1 c1 k1, s1 + 1)], [], []⟩ : ServiceState).attExpiry
      (computeSubnet cfg s2 c2 k2) = some (s1 + 1) := by
    rw [hu]; simp [lookupA]
  have hmax : Nat.max (s1 + 1) (s2 + 1) = s2 + 1 :=
    Nat.max_eq_right (by omega)
  have e2 : procSub cfg perm cur
      ⟨[(computeSubnet cfg s1 c1 k1, s1 + 1)], [], []⟩ (.attDuty c2 s2 k2 g2) =
      (⟨[(computeSubnet cfg s1 c1 k1, s2 + 1)], [], []⟩, [], []) := by
    have h := procSub_att_immediate_merge cfg perm cur
      ⟨[(computeSubnet cfg s1 c1 k1, s1 + 1)], [], []⟩ c2 s2 k2 (s1 + 1) g2
      (by omega) hL hperm2 hold2
    rw [h]
    simp [insertMax, hu, hmax]
  simp [validator_subscriptions, procList, e1, e2, dedupBySubnet]

/-! ## Claim C1 -/

/-- C1 (amended): for a pair of attestation subscriptions in one
`validator_subscriptions` call mapping to the same non-permanent subnet with
slots `s1 < s2`, both within the discovery lookahead of the current slot,
the service emits exactly one `Subscribe` (at the call) and exactly one
`Unsubscribe`, at slot `s2 + 1`: the expiry map keeps the larger expiry and
no `Subscribe` is re-emitted, the intervening slots emit nothing. -/
theorem c1_same_subnet_merge (cfg : SubnetConfig) (perm : List Nat)
    (cur c1 c2 k1 k2 s1 s2 : Nat) (g1 g2 : Bool)
    (hu : computeSubnet cfg s2 c2 k2 = computeSubnet cfg s1 c1 k1)
    (hperm : computeSubnet cfg s1 c1 k1 ∉ perm)
    (hcur : cur ≤ s1) (h12 : s1 < s2)
    (hL : s2 < cur + cfg.min_peer_discovery_slot_look_ahead) :
    (validator_subscriptions cfg perm cur emptyState
        [.attDuty c1 s1 k1 g1, .attDuty c2 s2 k2 g2]).2 =
      [.subscribe (.attSubnet (computeSubnet cfg s1 c1 k1))] ∧
    (runTicks cfg
        (validator_subscriptions cfg perm cur emptyState
          [.attDuty c1 s1 k1 g1, .attDuty c2 s2 k2 g2]).1
        (cur + 1) (s2 - cur)).2 = [] ∧
    (slotTick cfg (s2 + 1)
        (runTicks cfg
          (validator_subscriptions cfg perm cur emptyState
            [.attDuty c1 s1 k1 g1, .attDuty c2 s2 k2 g2]).1
          (cur + 1) (s2 - cur)).1).2 =
      [.unsubscribe (.attSubnet (computeSubnet cfg s1 c1 k1))] := by
  rw [sameSubnetOverlap cfg perm cur c1 c2 k1 k2 s1 s2 g1 g2 hu hperm hcur h12 hL]
  rw [runTicks_attOnly_quiet cfg (computeSubnet cfg s1 c1 k1) (s2 + 1)
    (s2 - cur) (cur + 1) (by omega)]
  exact ⟨rfl, rfl, by
    rw [slotTick_attOnly_fire cfg (s2 + 1) (computeSubnet cfg s1 c1 k1) (s2 + 1)
      (Nat.le_refl _)]⟩

/-- Witness for C1 (amended) at slots 1 and 2, committee indices 5 and 4,
subnet 6. -/
theorem c1_same_subnet_merge_witness :
    (computeSubnet mainnetConfig 2 4 1 = computeSubnet mainnetConfig 1 5 1 ∧
      computeSubnet mainnetConfig 1 5 1 ∉ [0, 1, 2, 3] ∧
      2 < 0 + mainnetConfig.min_peer_discovery_slot_look_ahead) ∧
    (validator_subscriptions mainnetConfig [0, 1, 2, 3] 0 emptyState
        [.attDuty 5 1 1 true, .attDuty 4 2 1 true]).2 =
      [.subscribe (.attSubnet (computeSubnet mainnetConfig 1 5 1))] :=
  ⟨⟨by decide, by decide, by decide⟩,
   (c1_same_subnet_merge mainnetConfig [0, 1, 2, 3] 0 5 4 1 1 1 2 true true
      (by decide) (by decide) (by decide) (by decide) (by decide)).1⟩

/-- Counterexample to C1 as stated: two attestation subscriptions in one call
to the same non-permanent subnet 13 at slots 0 and 11 (the second with enough
discovery runway) produce two `Subscribe` and two `Unsubscribe` messages, not
exactly one of each. -/
theorem c1_same_subnet_counterexample :
    computeSubnet mainnetConfig 0 13 1 = 13 ∧
    computeSubnet mainnetConfig 11 2 1 = 13 ∧
    (13 : Nat) ∉ [0, 1, 2, 3] ∧
    ((validator_subscriptions mainnetConfig [0, 1, 2, 3] 0 emptyState
        [.attDuty 13 0 1 true, .attDuty 2 11 1 true]).2 ++
      (runTicks mainnetConfig
        (validator_subscriptions mainnetConfig [0, 1, 2, 3] 0 emptyState
          [.attDuty 13 0 1 true, .attDuty 2 11 1 true]).1 1 12).2).count
      (.subscribe (.attSubnet 13)) = 2 ∧
    ((validator_subscriptions mainnetConfig [0, 1, 2, 3] 0 emptyState
        [.attDuty 13 0 1 true, .attDuty 2 11 1 true]).2 ++
      (runTicks mainnetConfig
        (validator_subscriptions mainnetConfig [0, 1, 2, 3] 0 emptyState
          [.attDuty 13 0 1 true, .attDuty 2 11 1 true]).1 1 12).2).count
      (.unsubscribe (.attSubnet 13)) = 2 := by
  decide

/-! ## Claim C2 -/

/-- C2: an attestation subscription to a non-permanent subnet not already in
the expiry map, submitted with fewer than
`min_peer_discovery_slot_look_ahead` slots of runway, makes the call emit
exactly `Subscribe(subnet)` — immediately, with no `DiscoverPeers`. -/
theorem c2_no_runway_skips_discovery (cfg : SubnetConfig) (perm : List Nat)
    (cur : Nat) (st : ServiceState) (c s k : Nat) (g : Bool)
    (hcur : cur ≤ s) (hrun : s < cur + cfg.min_peer_discovery_slot_look_ahead)
    (hperm : computeSubnet cfg s c k ∉ perm)
    (hnew : lookupA st.attExpiry (computeSubnet cfg s c k) = none) :
    (validator_subscriptions cfg perm cur st [.attDuty c s k g]).2 =
      [.subscribe (.attSubnet (computeSubnet cfg s c k))] := by
  have e1 := procSub_att_immediate_new cfg perm cur st c s k g hcur hrun hperm hnew
  simp [validator_subscriptions, procList, e1, dedupBySubnet]

/-- Witness for C2: one subscription at slot 1 (current slot 0), committee
index 5, landing on non-permanent subnet 6. -/
theorem c2_no_runway_skips_discovery_witness :
    (computeSubnet mainnetConfig 1 5 1 ∉ [0, 1, 2, 3] ∧
      1 < 0 + mainnetConfig.min_peer_discovery_slot_look_ahead) ∧
    (validator_subscriptions mainnetConfig [0, 1, 2, 3] 0 emptyState
        [.attDuty 5 1 1 true]).2 =
      [.subscribe (.attSubnet (computeSubnet mainnetConfig 1 5 1))] :=
  ⟨⟨by decide, by decide⟩,
   c2_no_runway_skips_discovery mainnetConfig [0, 1, 2, 3] 0 emptyState 5 1 1 true
     (by decide) (by decide) (by decide) rfl⟩

/-! ## Claim C7 -/

/-- C7 (amended): for two subscriptions targeting the same non-permanent
subnet whose windows overlap — both submitted in one call within the
discovery lookahead — only one `Subscribe` is emitted over the whole stream,
and the single `Unsubscribe` fires only once the latest expiry
(`max(s1, s2) + 1 = s2 + 1`) has elapsed: no `Unsubscribe` appears earlier. -/
theorem c7_single_subscribe_latest_expiry (cfg : SubnetConfig) (perm : List Nat)
    (cur c1 c2 k1 k2 s1 s2 : Nat) (g1 g2 : Bool)
    (hu : computeSubnet cfg s2 c2 k2 = computeSubnet cfg s1 c1 k1)
    (hperm : computeSubnet cfg s1 c1 k1 ∉ perm)
    (hcur : cur ≤ s1) (h12 : s1 < s2)
    (hL : s2 < cur + cfg.min_peer_discovery_slot_look_ahead) :
    ((validator_subscriptions cfg perm cur emptyState
          [.attDuty c1 s1 k1 g1, .attDuty c2 s2 k2 g2]).2 ++
        (runTicks cfg
          (validator_subscriptions cfg perm cur emptyState
            [.attDuty c1 s1 k1 g1, .attDuty c2 s2 k2 g2]).1
          (cur + 1) (s2 - cur)).2 ++
        (slotTick cfg (s2 + 1)
          (runTicks cfg
            (validator_subscriptions cfg perm cur emptyState
              [.attDuty c1 s1 k1 g1, .attDuty c2 s2 k2 g2]).1
            (cur + 1) (s2 - cur)).1).2).count
      (.subscribe (.attSubnet (computeSubnet cfg s1 c1 k1))) = 1 ∧
    ((validator_subscriptions cfg perm cur emptyState
          [.attDuty c1 s1 k1 g1, .attDuty c2 s2 k2 g2]).2 ++
        (runTicks cfg
          (validator_subscriptions cfg perm cur emptyState
            [.attDuty c1 s1 k1 g1, .attDuty c2 s2 k2 g2]).1
          (cur + 1) (s2 - cur)).2).count
      (.unsubscribe (.attSubnet (computeSubnet cfg s1 c1 k1))) = 0 ∧
    (slotTick cfg (s2 + 1)
        (runTicks cfg
          (validator_subscriptions cfg perm cur emptyState
            [.attDuty c1 s1 k1 g1, .attDuty c2 s2 k2 g2]).1
          (cur + 1) (s2 - cur)).1).2.count
      (.unsubscribe (.attSubnet (computeSubnet cfg s1 c1 k1))) = 1 := by
  rw [sameSubnetOverlap cfg perm cur c1 c2 k1 k2 s1 s2 g1 g2 hu hperm hcur h12 hL]
  rw [runTicks_attOnly_quiet cfg (computeSubnet cfg s1 c1 k1) (s2 + 1)
    (s2 - cur) (cur + 1) (by omega)]
  rw [slotTick_attOnly_fire cfg (s2 + 1) (computeSubnet cfg s1 c1 k1) (s2 + 1)
    (Nat.le_refl _)]
  simp

/-- Witness for C7 (amended) at slots 1 and 2, subnet 6. -/
theorem c7_single_subscribe_latest_expiry_witness :
    (computeSubnet mainnetConfig 2 4 1 = computeSubnet mainnetConfig 1 5 1 ∧
      computeSubnet mainnetConfig 1 5 1 ∉ [0, 1, 2, 3]) ∧
    ((validator_subscriptions mainnetConfig [0, 1, 2, 3] 0 emptyState
          [.attDuty 5 1 1 true, .attDuty 4 2 1 true]).2 ++
        (runTicks mainnetConfig
          (validator_subscriptions mainnetConfig [0, 1, 2, 3] 0 emptyState
            [.attDuty 5 1 1 true, .attDuty 4 2 1 true]).1 1 2).2).count
      (.unsubscribe (.attSubnet (computeSubnet mainnetConfig 1 5 1))) = 0 :=
  ⟨⟨by decide, by decide⟩,
   (c7_single_subscribe_latest_expiry mainnetConfig [0, 1, 2, 3] 0 5 4 1 1 1 2
      true true (by decide) (by decide) (by decide) (by decide) (by decide)).2.1⟩

/-- Counterexample to C7 as stated: two subscriptions to the same
non-permanent subnet 12 at slots 0 and 10 submitted in one call yield two
`Subscribe` messages over the stream, and an `Unsubscribe` already fires at
slot 1, before the latest expiry (slot 11) has elapsed. -/
theorem c7_single_subscribe_counterexample :
    computeSubnet mainnetConfig 0 12 1 = 12 ∧
    computeSubnet mainnetConfig 10 2 1 = 12 ∧
    (12 : Nat) ∉ [0, 1, 2, 3] ∧
    ((validator_subscriptions mainnetConfig [0, 1, 2, 3] 0 emptyState
        [.attDuty 12 0 1 true, .attDuty 2 10 1 true]).2 ++
      (runTicks mainnetConfig
        (validator_subscriptions mainnetConfig [0, 1, 2, 3] 0 emptyState
          [.attDuty 12 0 1 true, .attDuty 2 10 1 true]).1 1 11).2).count
      (.subscribe (.attSubnet 12)) = 2 ∧
    (slotTick mainnetConfig 1
        (validator_subscriptions mainnetConfig [0, 1, 2, 3] 0 emptyState
          [.attDuty 12 0 1 true, .attDuty 2 10 1 true]).1).2 =
      [.unsubscribe (.attSubnet 12)] := by
  decide

/-! ## Message-shape lemmas for the service stream -/

/-- Is this message an `EnrAdd` for an attestation subnet? -/
def isAttEnrAdd : SubnetServiceMessage → Bool
  | .enrAdd (.attSubnet _) => true
  | _ => false

/-- Is this message a `DiscoverPeers` request? -/
def isDiscover : SubnetServiceMessage → Bool
  | .discoverPeers _ => true
  | _ => false

/-- The shapes a `validator_subscriptions` call emits inline (before the
discovery flush): `Subscribe`, or `EnrAdd` of a sync subnet. -/
def inlineOk : SubnetServiceMessage → Bool
  | .subscribe _ => true
  | .enrAdd (.syncSubnet _) => true
  | _ => false

theorem procSyncList_msgs_inline (cfg : SubnetConfig) (uE : Nat) :
    ∀ (l : List Nat) (m : List (Nat × Nat)) (msg : SubnetServiceMessage),
      msg ∈ (procSyncList cfg uE l m).2.1 → inlineOk msg = true := by
  intro l
  induction l with
  | nil => intro m msg h; simp [procSyncList] at h
  | cons s rest ih =>
      intro m msg h
      simp only [procSyncList] at h
      cases hl : lookupA m s with
      | some w =>
          rw [hl] at h
          exact ih _ msg h
      | none =>
          rw [hl] at h
          simp only [List.mem_cons] at h
          rcases h with rfl | rfl | h
          · rfl
          · rfl
          · exact ih _ msg h

theorem procSub_msgs_inline (cfg : SubnetConfig) (perm : List Nat) (cur : Nat)
    (st : ServiceState) (sub : Subscription) (msg : SubnetServiceMessage)
    (h : msg ∈ (procSub cfg perm cur st sub).2.1) : inlineOk msg = true := by
  cases sub with
  | attDuty c s k g =>
      simp only [procSub] at h
      split at h
      · simp at h
      · split at h
        · simp at h
        · split at h
          · simp at h
          · split at h
            · simp at h
            · simp only [List.mem_singleton] at h
              subst h
              rfl
  | syncDuty v idxs uE =>
      simp only [procSub] at h
      exact procSyncList_msgs_inline cfg uE _ _ msg h

theorem procList_msgs_inline (cfg : SubnetConfig) (perm : List Nat) (cur : Nat) :
    ∀ (subs : List Subscription) (st : ServiceState) (msg : SubnetServiceMessage),
      msg ∈ (procList cfg perm cur st subs).2.1 → inlineOk msg = true := by
  intro subs
  induction subs with
  | nil => intro st msg h; simp [procList] at h
  | cons sub rest ih =>
      intro st msg h
      simp only [procList, List.mem_append] at h
      cases h with
      | inl h => exact procSub_msgs_inline cfg perm cur st sub msg h
      | inr h => exact ih _ msg h

theorem dedupBySubnet_fst_nodup :
    ∀ (l : List (Subnet × Option Nat)) (seen : List Subnet),
      ((dedupBySubnet seen l).map Prod.fst).Nodup ∧
      ∀ x ∈ (dedupBySubnet seen l).map Prod.fst, x ∉ seen := by
  intro l
  induction l with
  | nil => intro seen; simp [dedupBySubnet]
  | cons p rest ih =>
      intro seen
      obtain ⟨s, t⟩ := p
      by_cases hs : s ∈ seen
      · simpa [dedupBySubnet, hs] using ih seen
      · have ih' := ih (s :: seen)
        constructor
        · simp only [dedupBySubnet, if_neg hs, List.map_cons, List.nodup_cons]
          exact ⟨fun hmem => (ih'.2 s hmem) (List.mem_cons_self s seen), ih'.1⟩
        · intro x hx
          simp only [dedupBySubnet, if_neg hs, List.map_cons, List.mem_cons] at hx
          rcases hx with rfl | hx
          · exact hs
          · exact fun hxseen => (ih'.2 x hx) (List.mem_cons_of_mem _ hxseen)

/-! ## Claim C6 -/

/-- C6: every bulk `DiscoverPeers` batch emitted by a
`validator_subscriptions` call contains no duplicate subnets and has length
at most `attestation_subnet_count`. -/
theorem c6_bulk_discovery_dedup (cfg : SubnetConfig) (perm : List Nat)
    (cur : Nat) (st : ServiceState) (subs : List Subscription)
    (r : List (Subnet × Option Nat))
    (h : .discoverPeers r ∈ (validator_subscriptions cfg perm cur st subs).2) :
    (r.map Prod.fst).Nodup ∧ r.length ≤ cfg.attestation_subnet_count := by
  simp only [validator_subscriptions, List.mem_append] at h
  cases h with
  | inl h =>
      have := procList_msgs_inline cfg perm cur subs st _ h
      simp [inlineOk] at this
  | inr h =>
      split at h
      · simp at h
      · simp only [List.mem_singleton, SubnetServiceMessage.discoverPeers.injEq] at h
        subst h
        constructor
        · rw [List.map_take]
          exact ((dedupBySubnet_fst_nodup _ []).1).sublist (List.take_sublist _ _)
        · rw [List.length_take]
          exact min_le_left _ _

theorem activateDue_msgs :
    ∀ (due : List (Nat × Nat × Nat)) (m : List (Nat × Nat))
      (msg : SubnetServiceMessage), msg ∈ (activateDue due m).2 →
      ∃ u, msg = .subscribe (.attSubnet u) := by
  intro due
  induction due with
  | nil => intro m msg h; simp [activateDue] at h
  | cons q rest ih =>
      intro m msg h
      simp only [activateDue] at h
      cases hl : lookupA m q.1 with
      | some w =>
          rw [hl] at h
          exact ih _ msg h
      | none =>
          rw [hl] at h
          simp only [List.mem_cons] at h
          rcases h with rfl | h
          · exact ⟨q.1, rfl⟩
          · exact ih _ msg h

theorem slotTick_msgs (cfg : SubnetConfig) (t : Nat) (st : ServiceState)
    (msg : SubnetServiceMessage) (h : msg ∈ (slotTick cfg t st).2) :
    (∃ s, msg = .unsubscribe s) ∨ (∃ s, msg = .enrRemove s) ∨
      (∃ u, msg = .subscribe (.attSubnet u)) := by
  simp only [slotTick, List.mem_append] at h
  rcases h with (h | h) | h
  · rcases List.mem_map.mp h with ⟨p, -, rfl⟩
    exact Or.inl ⟨_, rfl⟩
  · rcases List.mem_flatMap.mp h with ⟨p, -, hp⟩
    simp only [List.mem_cons, List.mem_singleton] at hp
    rcases hp with rfl | rfl | hfalse
    · exact Or.inl ⟨_, rfl⟩
    · exact Or.inr (Or.inl ⟨_, rfl⟩)
    · simp at hfalse
  · exact Or.inr (Or.inr (activateDue_msgs _ _ msg h))

theorem inlineOk_not_attEnrAdd (msg : SubnetServiceMessage)
    (h : inlineOk msg = true) : isAttEnrAdd msg = false := by
  cases msg with
  | enrAdd s => cases s <;> simp_all [inlineOk, isAttEnrAdd]
  | subscribe s => rfl
  | unsubscribe s => rfl
  | enrRemove s => rfl
  | discoverPeers r => rfl

theorem serviceStep_attEnrAdd_false (cfg : SubnetConfig) (perm : List Nat)
    (st : ServiceState) (ev : ServiceEvent) (msg : SubnetServiceMessage)
    (h : msg ∈ (serviceStep cfg perm st ev).2) : isAttEnrAdd msg = false := by
  cases ev with
  | call cur subs =>
      simp only [serviceStep, validator_subscriptions, List.mem_append] at h
      cases h with
      | inl h =>
          exact inlineOk_not_attEnrAdd msg (procList_msgs_inline cfg perm cur subs st msg h)
      | inr h =>
          split at h
          · simp at h
          · simp only [List.mem_singleton] at h
            subst h
            rfl
  | tickAt t =>
      rcases slotTick_msgs cfg t st msg h with ⟨s, rfl⟩ | ⟨s, rfl⟩ | ⟨u, rfl⟩ <;> rfl

theorem serviceRun_attEnrAdd_false (cfg : SubnetConfig) (perm : List Nat) :
    ∀ (evs : List ServiceEvent) (st : ServiceState) (msg : SubnetServiceMessage),
      msg ∈ (serviceRun cfg perm st evs).2 → isAttEnrAdd msg = false := by
  intro evs
  induction evs with
  | nil => intro st msg h; simp [serviceRun] at h
  | cons ev rest ih =>
      intro st msg h
      simp only [serviceRun, List.mem_append] at h
      cases h with
      | inl h => exact serviceStep_attEnrAdd_false cfg perm st ev msg h
      | inr h => exact ih _ msg h

/-- The `Subscribe`/`EnrAdd` pair block emitted at startup. -/
def startupPairs (perm : List Nat) : List SubnetServiceMessage :=
  perm.flatMap (fun s =>
    [SubnetServiceMessage.subscribe (Subnet.attSubnet s),
     SubnetServiceMessage.enrAdd (Subnet.attSubnet s)])

theorem startupMsgs_eq (perm : List Nat) :
    startupMsgs perm = startupPairs perm ++
      [SubnetServiceMessage.discoverPeers
        (perm.map (fun s => (Subnet.attSubnet s, (none : Option Nat))))] := rfl

theorem startupPairs_length (perm : List Nat) :
    (startupPairs perm).length = 2 * perm.length := by
  induction perm with
  | nil => rfl
  | cons x xs ih =>
      simp only [startupPairs, List.flatMap_cons] at ih ⊢
      simp [ih]
      omega

theorem startupPairs_get :
    ∀ (perm : List Nat) (i : Nat) (h : i < perm.length),
      (startupPairs perm).get? (2 * i) =
        some (.subscribe (.attSubnet (perm.get ⟨i, h⟩))) ∧
      (startupPairs perm).get? (2 * i + 1) =
        some (.enrAdd (.attSubnet (perm.get ⟨i, h⟩))) := by
  intro perm
  induction perm with
  | nil => intro i h; simp at h
  | cons x xs ih =>
      intro i h
      cases i with
      | zero => exact ⟨rfl, rfl⟩
      | succ j =>
          have hj : j < xs.length := by simpa using h
          have h2 : 2 * (j + 1) = 2 * j + 1 + 1 := by omega
          simp only [startupPairs, List.flatMap_cons] at ih ⊢
          rw [h2]
          simpa using ih j hj

theorem startupPairs_countP_attEnrAdd (perm : List Nat) :
    (startupPairs perm).countP isAttEnrAdd = perm.length := by
  induction perm with
  | nil => rfl
  | cons x xs ih =>
      simp only [startupPairs, List.flatMap_cons] at ih ⊢
      simp [List.countP_cons, isAttEnrAdd, ih]

theorem startupPairs_countP_isDiscover (perm : List Nat) :
    (startupPairs perm).countP isDiscover = 0 := by
  induction perm with
  | nil => rfl
  | cons x xs ih =>
      simp only [startupPairs, List.flatMap_cons] at ih ⊢
      simp [List.countP_cons, isDiscover, ih]

theorem startupPairs_count_enrAdd (perm : List Nat) (s : Nat) :
    (startupPairs perm).count (.enrAdd (.attSubnet s)) = perm.count s := by
  induction perm with
  | nil => rfl
  | cons x xs ih =>
      simp only [startupPairs, List.flatMap_cons] at ih ⊢
      by_cases hx : x = s
      · subst hx
        simp [List.count_cons, ih]
      · simp [List.count_cons, ih, hx]

/-! ## Claim C3 -/

/-- C3: at startup the service emits, for each of the `subnets_per_node`
permanent subnets in order, `Subscribe(s)` immediately followed by
`EnrAdd(s)`, and after all pairs exactly one `DiscoverPeers` carrying all
permanent subnets (it is the last startup message); over the whole lifetime
the `EnrAdd` messages for (attestation) permanent subnets number exactly
`subnets_per_node`, one per subnet, and none is emitted after startup. -/
theorem c3_startup_permanent (cfg : SubnetConfig) (perm : List Nat)
    (evs : List ServiceEvent) (hnd : perm.Nodup)
    (hlen : perm.length = cfg.subnets_per_node) :
    (∀ i (h : i < perm.length),
      (startupMsgs perm).get? (2 * i) =
        some (.subscribe (.attSubnet (perm.get ⟨i, h⟩))) ∧
      (startupMsgs perm).get? (2 * i + 1) =
        some (.enrAdd (.attSubnet (perm.get ⟨i, h⟩)))) ∧
    (startupMsgs perm).countP isDiscover = 1 ∧
    (startupMsgs perm).getLast? =
      some (.discoverPeers (perm.map (fun s => (.attSubnet s, none)))) ∧
    (∀ s ∈ perm,
      (startupMsgs perm ++ (serviceRun cfg perm emptyState evs).2).count
        (.enrAdd (.attSubnet s)) = 1) ∧
    (startupMsgs perm ++ (serviceRun cfg perm emptyState evs).2).countP isAttEnrAdd
      = cfg.subnets_per_node := by
  refine ⟨?_, ?_, ?_, ?_, ?_⟩
  · intro i h
    have hp := startupPairs_get perm i h
    have h1 : 2 * i < (startupPairs perm).length := by
      rw [startupPairs_length]; omega
    have h2 : 2 * i + 1 < (startupPairs perm).length := by
      rw [startupPairs_length]; omega
    rw [startupMsgs_eq]
    constructor
    · rw [List.get?_append h1]; exact hp.1
    · rw [List.get?_append h2]; exact hp.2
  · rw [startupMsgs_eq, List.countP_append, startupPairs_countP_isDiscover]
    rfl
  · rw [startupMsgs_eq]
    exact List.getLast?_concat _
  · intro s hs
    have hrun : (serviceRun cfg perm emptyState evs).2.count
        (.enrAdd (.attSubnet s)) = 0 := by
      rw [List.count_eq_zero]
      intro hmem
      have := serviceRun_attEnrAdd_false cfg perm evs emptyState _ hmem
      simp [isAttEnrAdd] at this
    rw [List.count_append, hrun, startupMsgs_eq, List.count_append,
      startupPairs_count_enrAdd]
    have : perm.count s = 1 := List.count_eq_one_of_mem hnd hs
    simp [this]
  · have hrun : (serviceRun cfg perm emptyState evs).2.countP isAttEnrAdd = 0 := by
      rw [List.countP_eq_zero]
      intro m hm
      simp [serviceRun_attEnrAdd_false cfg perm evs emptyState m hm]
    rw [List.countP_append, hrun, startupMsgs_eq, List.countP_append,
      startupPairs_countP_attEnrAdd, ← hlen]
    rfl

/-- Witness for C3 with the mainnet permanent set `[0, 1, 2, 3]` and a short
post-startup run (one attestation call and one tick). -/
theorem c3_startup_permanent_witness :
    (startupMsgs [0, 1, 2, 3] ++
        (serviceRun mainnetConfig [0, 1, 2, 3] emptyState
          [.call 0 [.attDuty 5 1 1 true], .tickAt 2]).2).count
      (.enrAdd (.attSubnet 2)) = 1 ∧
    (startupMsgs [0, 1, 2, 3] ++
        (serviceRun mainnetConfig [0, 1, 2, 3] emptyState
          [.call 0 [.attDuty 5 1 1 true], .tickAt 2]).2).countP isAttEnrAdd
      = mainnetConfig.subnets_per_node :=
  ⟨(c3_startup_permanent mainnetConfig [0, 1, 2, 3]
      [.call 0 [.attDuty 5 1 1 true], .tickAt 2] (by decide) (by decide)).2.2.2.1
      2 (by decide),
   (c3_startup_permanent mainnetConfig [0, 1, 2, 3]
      [.call 0 [.attDuty 5 1 1 true], .tickAt 2] (by decide) (by decide)).2.2.2.2⟩

/-- The discovery batches among a message list. -/
def bulkRequests (msgs : List SubnetServiceMessage) :
    List (List (Subnet × Option Nat)) :=
  msgs.filterMap (fun m =>
    match m with
    | .discoverPeers r => some r
    | _ => none)

/-- The 65 attestation subscriptions of `subscribe_correct_number_of_subnets`:
64 distinct subnets plus one duplicate (committee indices `0..64` at slot 10,
committee count 1). -/
def subs65 : List Subscription :=
  (List.range 65).map (fun i => .attDuty i 10 1 true)

/-- The state and messages of the `subs65` call at current slot 0. -/
def call65 : ServiceState × List SubnetServiceMessage :=
  validator_subscriptions mainnetConfig [0, 1, 2, 3] 0 emptyState subs65

/-- The bulk discovery batch of the `subs65` call. -/
def bulk65 : List (Subnet × Option Nat) :=
  (bulkRequests call65.2).headD []

set_option maxRecDepth 16384 in
/-- Witness for C6: the 65-subscription scenario's bulk batch is deduplicated,
has length exactly 64, and the repeated subnet 10 receives a single
`Subscribe` over the whole emission window. -/
theorem c6_bulk_discovery_dedup_witness :
    SubnetServiceMessage.discoverPeers bulk65 ∈ call65.2 ∧
    ((bulk65.map Prod.fst).Nodup ∧
      bulk65.length ≤ mainnetConfig.attestation_subnet_count) ∧
    bulk65.length = 64 ∧
    (call65.2 ++ (runTicks mainnetConfig call65.1 1 11).2).count
      (.subscribe (.attSubnet 10)) = 1 :=
  ⟨by decide,
   c6_bulk_discovery_dedup mainnetConfig [0, 1, 2, 3] 0 emptyState subs65 bulk65
     (by decide),
   by decide, by decide⟩

/-! ## Claim C4 -/

/-- C4: a sync-committee subscription introducing an untracked sync subnet
`s` makes the call emit, in order, `Subscribe(SyncCommittee(s))`,
`EnrAdd(SyncCommittee(s))`, `DiscoverPeers([s])` (with `min_ttl` derived from
`until_epoch`); the subnet is unsubscribed two epochs after `until_epoch`: the
intervening slots emit nothing, the slot starting epoch `until_epoch + 2`
emits `Unsubscribe(SyncCommittee(s))` then `EnrRemove(SyncCommittee(s))`, and
afterwards `subscriptions()` no longer contains `s`. -/
theorem c4_sync_lifecycle (cfg : SubnetConfig) (perm : List Nat)
    (cur v uE s : Nat) (idxs : List Nat)
    (hS : computeSyncSubnets cfg idxs = [s])
    (hspe : 0 < cfg.slots_per_epoch)
    (hcap : 1 ≤ cfg.attestation_subnet_count)
    (hcur : cur + 1 ≤ (uE + 2) * cfg.slots_per_epoch) :
    validator_subscriptions cfg perm cur emptyState [.syncDuty v idxs uE] =
      (⟨[], [], [(s, uE)]⟩,
       [.subscribe (.syncSubnet s), .enrAdd (.syncSubnet s),
        .discoverPeers [(.syncSubnet s, some ((uE + 2) * cfg.slots_per_epoch))]]) ∧
    runTicks cfg ⟨[], [], [(s, uE)]⟩ (cur + 1)
        ((uE + 2) * cfg.slots_per_epoch - (cur + 1)) =
      (⟨[], [], [(s, uE)]⟩, []) ∧
    slotTick cfg ((uE + 2) * cfg.slots_per_epoch) ⟨[], [], [(s, uE)]⟩ =
      (emptyState, [.unsubscribe (.syncSubnet s), .enrRemove (.syncSubnet s)]) ∧
    Subnet.syncSubnet s ∉ subscriptionsList emptyState := by
  refine ⟨?_, ?_, ?_, ?_⟩
  · have e1 : procSub cfg perm cur emptyState (.syncDuty v idxs uE) =
        (⟨[], [], [(s, uE)]⟩,
         [.subscribe (.syncSubnet s), .enrAdd (.syncSubnet s)],
         [(.syncSubnet s, some ((uE + 2) * cfg.slots_per_epoch))]) := by
      simp [procSub, hS, procSyncList, lookupA, emptyState]
    have hbatch :
        (dedupBySubnet []
            [((Subnet.syncSubnet s : Subnet),
              some ((uE + 2) * cfg.slots_per_epoch))]).take
          cfg.attestation_subnet_count =
        [((Subnet.syncSubnet s : Subnet), some ((uE + 2) * cfg.slots_per_epoch))] := by
      simp only [dedupBySubnet, List.not_mem_nil, if_neg]
      exact take_one_of_singleton _ _ hcap
    simp [validator_subscriptions, procList, e1, hbatch]
  · exact runTicks_syncOnly_quiet cfg s uE hspe _ (cur + 1) (by omega)
  · exact slotTick_syncOnly_fire cfg _ s uE (by rw [Nat.mul_div_cancel _ hspe])
  · simp [subscriptionsList, emptyState]

/-- Witness for C4 with the test scenario: indices `[1]` (sync subnet 0),
`until_epoch = 1`, current slot 0, mainnet spec. -/
theorem c4_sync_lifecycle_witness :
    computeSyncSubnets mainnetConfig [1] = [0] ∧
    validator_subscriptions mainnetConfig [0, 1, 2, 3] 0 emptyState
        [.syncDuty 1 [1] 1] =
      (⟨[], [], [(0, 1)]⟩,
       [.subscribe (.syncSubnet 0), .enrAdd (.syncSubnet 0),
        .discoverPeers
          [(.syncSubnet 0, some ((1 + 2) * mainnetConfig.slots_per_epoch))]]) ∧
    slotTick mainnetConfig ((1 + 2) * mainnetConfig.slots_per_epoch)
        ⟨[], [], [(0, 1)]⟩ =
      (emptyState, [.unsubscribe (.syncSubnet 0), .enrRemove (.syncSubnet 0)]) :=
  ⟨by decide,
   (c4_sync_lifecycle mainnetConfig [0, 1, 2, 3] 0 1 1 0 [1]
      (by decide) (by decide) (by decide) (by decide)).1,
   (c4_sync_lifecycle mainnetConfig [0, 1, 2, 3] 0 1 1 0 [1]
      (by decide) (by decide) (by decide) (by decide)).2.2.1⟩

/-! ## Claim C5 -/

/-- C5: re-submitting a sync-committee subscription for an already tracked
subnet — identical or with a lower `until_epoch` than the stored value —
emits no `Subscribe`, `EnrAdd` or `Unsubscribe` and at most one additional
`DiscoverPeers` (here: exactly one, the refresh), and the stored
`until_epoch` is unchanged (the map keeps the maximum ever submitted). -/
theorem c5_lower_until_is_idempotent (cfg : SubnetConfig) (perm : List Nat)
    (cur v1 v2 uOld u1 u2 s : Nat) (st : ServiceState) (idxs : List Nat)
    (hS : computeSyncSubnets cfg idxs = [s])
    (hst : lookupA st.syncExpiry s = some uOld)
    (h1 : u1 ≤ uOld) (h2 : u2 ≤ uOld)
    (hcap : 1 ≤ cfg.attestation_subnet_count) :
    (validator_subscriptions cfg perm cur st
        [.syncDuty v1 idxs u1, .syncDuty v2 idxs u2]).2 =
      [.discoverPeers [(.syncSubnet s, some ((u1 + 2) * cfg.slots_per_epoch))]] ∧
    lookupA (validator_subscriptions cfg perm cur st
        [.syncDuty v1 idxs u1, .syncDuty v2 idxs u2]).1.syncExpiry s =
      some uOld := by
  have e1 : procSub cfg perm cur st (.syncDuty v1 idxs u1) =
      ({ st with syncExpiry := insertMax st.syncExpiry s u1 }, [],
       [(.syncSubnet s, some ((u1 + 2) * cfg.slots_per_epoch))]) := by
    simp [procSub, hS, procSyncList, hst]
  have hmx1 : Nat.max uOld u1 = uOld := max_eq_left h1
  have hl1 : lookupA (insertMax st.syncExpiry s u1) s = some uOld := by
    rw [lookupA_insertMax_some u1 hst, hmx1]
  have e2 : procSub cfg perm cur
      { st with syncExpiry := insertMax st.syncExpiry s u1 }
      (.syncDuty v2 idxs u2) =
      ({ st with syncExpiry := insertMax (insertMax st.syncExpiry s u1) s u2 },
       [], [(.syncSubnet s, some ((u2 + 2) * cfg.slots_per_epoch))]) := by
    simp [procSub, hS, procSyncList, hl1]
  have hbatch :
      (dedupBySubnet []
          [((Subnet.syncSubnet s : Subnet), some ((u1 + 2) * cfg.slots_per_epoch)),
           ((Subnet.syncSubnet s : Subnet), some ((u2 + 2) * cfg.slots_per_epoch))]).take
        cfg.attestation_subnet_count =
      [((Subnet.syncSubnet s : Subnet), some ((u1 + 2) * cfg.slots_per_epoch))] := by
    have hd : dedupBySubnet ([] : List Subnet)
        [((Subnet.syncSubnet s : Subnet), some ((u1 + 2) * cfg.slots_per_epoch)),
         ((Subnet.syncSubnet s : Subnet), some ((u2 + 2) * cfg.slots_per_epoch))] =
        [((Subnet.syncSubnet s : Subnet), some ((u1 + 2) * cfg.slots_per_epoch))] := by
      simp [dedupBySubnet]
    rw [hd]
    exact take_one_of_singleton _ _ hcap
  constructor
  · simp [validator_subscriptions, procList, e1, e2, hbatch]
  · have hmx2 : Nat.max uOld u2 = uOld := max_eq_left h2
    simp only [validator_subscriptions, procList, e1, e2]
    rw [lookupA_insertMax_some u2 hl1, hmx2]

/-- Witness for C5: stored `until_epoch = 2`, duplicate subscription with
`until_epoch = 2` and one with `until_epoch = 1`. -/
theorem c5_lower_until_is_idempotent_witness :
    (validator_subscriptions mainnetConfig [0, 1, 2, 3] 0 ⟨[], [], [(0, 2)]⟩
        [.syncDuty 1 [1] 2, .syncDuty 1 [1] 1]).2 =
      [.discoverPeers
        [(.syncSubnet 0, some ((2 + 2) * mainnetConfig.slots_per_epoch))]] ∧
    lookupA (validator_subscriptions mainnetConfig [0, 1, 2, 3] 0
        ⟨[], [], [(0, 2)]⟩
        [.syncDuty 1 [1] 2, .syncDuty 1 [1] 1]).1.syncExpiry 0 = some 2 :=
  c5_lower_until_is_idempotent mainnetConfig [0, 1, 2, 3] 0 1 1 2 2 1 0
    ⟨[], [], [(0, 2)]⟩ [1] (by decide) rfl (by decide) (by decide) (by decide)

/-! ## Claim C9 -/

/-- C9: `decimal_buckets(min_power, max_power)` returns `Err` if and only if
`max_power < min_power`; otherwise it returns `Ok` of a vector of length
exactly `3 * (max_power - min_power + 1)` whose `k`-th element is the
multiplier `1`, `2` or `5` (by `k % 3`) times `10 ^ (min_power + k / 3)` —
the values `1, 2, 5` times `10^n` for each `n` from `min_power` to
`max_power`, in increasing `n`-then-multiplier order. -/
theorem c9_decimal_buckets_spec (a b : Int) :
    ((decimal_buckets a b).isOk = true ↔ a ≤ b) ∧
    (∀ l, decimal_buckets a b = .ok l →
      l.length = 3 * (b - a + 1).toNat ∧
      ∀ k (hk : k < l.length),
        l.get ⟨k, hk⟩ = bucketMultiplier (k % 3) * (10 : ℚ) ^ (a + (k / 3 : Nat))) := by
  constructor
  · by_cases h : b < a
    · simp only [decimal_buckets, if_pos h]
      simp [Except.isOk, Except.toBool]
      omega
    · simp only [decimal_buckets, if_neg h]
      simp [Except.isOk, Except.toBool]
      omega
  · intro l hl
    by_cases h : b < a
    · simp [decimal_buckets, h] at hl
    · simp only [decimal_buckets, if_neg h, Except.ok.injEq] at hl
      subst hl
      exact ⟨bucketsFrom_length a _, fun k hk => bucketsFrom_get a _ k hk⟩

/-- Witness for C9 at `min_power = 0`, `max_power = 2`. -/
theorem c9_decimal_buckets_spec_witness :
    decimal_buckets 0 2 = Except.ok (bucketsFrom 0 3) ∧
    (bucketsFrom 0 3).length = 3 * ((2 : Int) - 0 + 1).toNat :=
  ⟨rfl, ((c9_decimal_buckets_spec 0 2).2 (bucketsFrom 0 3) rfl).1⟩

/-! ## Claim C10 -/

/-- C10: the metric mutation helpers are total and tolerate failed metric
creation: `set_int_gauge` returns `false` and leaves the storage untouched
when the handle is `Err` or the labelled gauge cannot be retrieved, and
returns `true` exactly when the handle is `Ok` and the labels match, in which
case the gauge is set to the value; `inc_counter` is a no-op on an `Err`
handle and increments on `Ok`.  No case is missing, so no panic or error
reaches the caller. -/
theorem c10_metric_helpers_total (vec : Except Unit IntGaugeVecM)
    (store : List (List String × Int)) (name : List String) (value : Int) :
    (∀ e, vec = .error e → set_int_gauge vec store name value = (false, store)) ∧
    ((set_int_gauge vec store name value).1 = true ↔
      ∃ v, vec = .ok v ∧ name.length = v.labelNames.length) ∧
    ((set_int_gauge vec store name value).1 = false →
      (set_int_gauge vec store name value).2 = store) ∧
    ((set_int_gauge vec store name value).1 = true →
      gaugeRead (set_int_gauge vec store name value).2 name = some value) ∧
    (∀ e count, inc_counter (.error e) count = count) ∧
    (∀ u count, inc_counter (.ok u) count = count + 1) := by
  refine ⟨?_, ?_, ?_, ?_, fun e count => rfl, fun u count => rfl⟩
  · intro e he
    subst he
    rfl
  · cases vec with
    | error e => simp [set_int_gauge]
    | ok v =>
        by_cases h : name.length = v.labelNames.length <;>
          simp [set_int_gauge, h]
  · cases vec with
    | error e => intro _; rfl
    | ok v =>
        by_cases h : name.length = v.labelNames.length <;>
          simp [set_int_gauge, h]
  · cases vec with
    | error e => simp [set_int_gauge]
    | ok v =>
        by_cases h : name.length = v.labelNames.length <;>
          simp [set_int_gauge, h, gaugeRead_gaugeWrite_self]

/-- Witness for C10: an `Err` handle is tolerated and sets nothing; an `Ok`
handle with matching labels sets the gauge; `inc_counter` ignores `Err`. -/
theorem c10_metric_helpers_total_witness :
    set_int_gauge (.error ()) [] ["a"] 3 = (false, []) ∧
    inc_counter (.error ()) 7 = 7 ∧
    gaugeRead (set_int_gauge (.ok ⟨["lbl"]⟩) [] ["x"] 5).2 ["x"] = some 5 :=
  ⟨(c10_metric_helpers_total (.error ()) [] ["a"] 3).1 () rfl,
   (c10_metric_helpers_total (.error ()) [] ["a"] 3).2.2.2.2.1 () 7,
   (c10_metric_helpers_total (.ok ⟨["lbl"]⟩) [] ["x"] 5).2.2.2.1 rfl⟩

/-! ## Claim C8 -/

/-- C8: `verify_exit` returns `Err(ValidatorUnknown(i))` when the exit's
validator index is not a valid index into `state.validators()` (no panic),
and returns `Ok(())` only if the validator is active at the effective current
epoch (the argument when `Some`, else `state.current_epoch()`), its
`exit_epoch` equals `far_future_epoch`, the exit's epoch is at most the
effective current epoch, and the effective current epoch is at least
`activation_epoch + shard_committee_period`.  The state is taken immutably:
the embedding consumes it as a pure value. -/
theorem c8_verify_exit_spec (state : BeaconStateM) (current_epoch_arg : Option Nat)
    (exit : VoluntaryExitM) (verify_signatures : Bool)
    (sig_verify : Except ExitBlockOperationError Bool) (spec : ChainSpecM) :
    (state.validators.get? exit.validator_index = none →
      verify_exit state current_epoch_arg exit verify_signatures sig_verify spec =
        .error (.invalid (.ValidatorUnknown exit.validator_index))) ∧
    (verify_exit state current_epoch_arg exit verify_signatures sig_verify spec = .ok () →
      ∃ v, state.validators.get? exit.validator_index = some v ∧
        v.is_active_at (current_epoch_arg.getD state.current_epoch) = true ∧
        v.exit_epoch = spec.far_future_epoch ∧
        exit.epoch ≤ current_epoch_arg.getD state.current_epoch ∧
        v.activation_epoch + spec.shard_committee_period ≤
          current_epoch_arg.getD state.current_epoch) := by
  constructor
  · intro h
    simp only [verify_exit, h]
  · intro h
    simp only [verify_exit] at h
    cases hv : state.validators.get? exit.validator_index with
    | none => rw [hv] at h; cases h
    | some v =>
        rw [hv] at h
        refine ⟨v, rfl, ?_⟩
        by_cases h1 : v.is_active_at (current_epoch_arg.getD state.current_epoch) = true
        swap
        · exfalso
          simp [h1] at h
        by_cases h2 : v.exit_epoch = spec.far_future_epoch
        swap
        · exfalso
          simp [h1, h2] at h
        by_cases h3 : exit.epoch ≤ current_epoch_arg.getD state.current_epoch
        swap
        · exfalso
          simp [h1, h2, h3] at h
        by_cases h4 : v.activation_epoch + spec.shard_committee_period ≤
            current_epoch_arg.getD state.current_epoch
        swap
        · exfalso
          simp [h1, h2, h3, safe_add] at h
          split at h
          · exact Except.noConfusion h
          · rename_i earliest heq
            split at heq
            · have hear : earliest = v.activation_epoch + spec.shard_committee_period :=
                (Option.some.inj heq).symm
              rw [if_pos (by omega)] at h
              exact Except.noConfusion h
            · cases heq
        exact ⟨h1, h2, h3, h4⟩

/-- Witness for C8: an out-of-range index yields `ValidatorUnknown`, and an
accepted exit's validator is indeed active at the effective epoch. -/
theorem c8_verify_exit_spec_witness :
    verify_exit ⟨[], 5, none⟩ none ⟨0, 0⟩ false (.ok true) ⟨1000000, 256⟩ =
      .error (.invalid (.ValidatorUnknown 0)) ∧
    (⟨0, 1000000⟩ : ValidatorM).is_active_at 300 = true := by
  constructor
  · exact (c8_verify_exit_spec ⟨[], 5, none⟩ none ⟨0, 0⟩ false (.ok true)
      ⟨1000000, 256⟩).1 rfl
  · obtain ⟨v, hv, hact, -⟩ :=
      (c8_verify_exit_spec ⟨[⟨0, 1000000⟩], 300, none⟩ none ⟨0, 0⟩ false (.ok true)
        ⟨1000000, 256⟩).2 rfl
    have hveq : v = ⟨0, 1000000⟩ := by
      simpa using hv.symm
    rw [← hveq]
    exact hact

end Lighthouse




